import Mathlib

/-!
Shallow embedding of the two mailer implementations of the repository:

* app/extensions/ms_graph_mailer.py   (class MsGraphMailer, English variant)
* app/services/notification_service.py (class MicrosoftMailClient, Chinese variant)

Python dicts returned by the MSAL library are modelled as association lists,
the MSAL library and the HTTP transport are modelled as explicit environments,
and every observable action (network requests, log records) is collected in a
trace.  A send that raises an exception in Python is modelled by a dedicated
outcome value.
-/

/-- A promotion record as consumed by both mailers (models.PromotionGame). -/
structure PromotionGame where
  title : String
  url : String
  description : String

/-- Association-list lookup, modelling Python dict access on the token dicts. -/
def dlookup : List (String × String) → String → Option String
  | [], _ => none
  | (k, v) :: rest, key => if k = key then some v else dlookup rest key

/-- Python truthiness of an optional string field: None and "" are falsy. -/
def strTruthy : Option String → Bool
  | none => false
  | some s => !s.isEmpty

/-- JSON values, for the sendMail payloads built by both variants. -/
inductive Json where
  | str (s : String)
  | bool (b : Bool)
  | arr (elems : List Json)
  | obj (fields : List (String × Json))

/-- Field lookup in a list of JSON object fields. -/
def jfieldLookup : List (String × Json) → String → Option Json
  | [], _ => none
  | (k, v) :: rest, key => if k = key then some v else jfieldLookup rest key

/-- Field lookup in a JSON object value. -/
def jlookup : Json → String → Option Json
  | Json.obj fields, key => jfieldLookup fields key
  | _, _ => none

/-- Outbound MSAL/HTTP activity observable during a send.  `silentAttempt` is
the local token-cache lookup of acquire silent (not a network request);
`tokenRequest` is the client-credentials request to the token endpoint;
`sendMailPost` is the POST to the Graph sendMail endpoint. -/
inductive NetEvent where
  | silentAttempt
  | tokenRequest
  | sendMailPost (url : String) (authHeader : String) (payload : Json)

/-- Log records emitted by the two variants, with their payloads. -/
inductive LogEvent where
  | warnNotConfigured (missing_configs : List String)
  | errorClientInit
  | errorTokenFailed (err : Option String) (description : Option String)
  | successSent
  | errorSendFailed (status_code : Nat) (content : String)
  | debugNoPromotions
  | warnNoRecipients

/-- How a send call terminates: a normal return, a RuntimeError raised during
token acquisition, or an HTTPStatusError raised by raise for status. -/
inductive SendOutcome where
  | returned
  | raisedAuth (message : String)
  | raisedStatus (status_code : Nat) (content : String)

/-- Behaviour of the MSAL confidential client: what acquire silent returns
(None or a dict), and the dict returned by the client-credentials request. -/
structure MsalEnv where
  silent_result : Option (List (String × String))
  client_result : List (String × String)

/-- Whether acquire silent returned a falsy value (None or an empty dict). -/
def MsalEnv.silentMiss (env : MsalEnv) : Bool :=
  match env.silent_result with
  | none => true
  | some d => d.isEmpty

/-- The HTTP response the Graph sendMail endpoint would give. -/
structure HttpEnv where
  status_code : Nat
  text : String

/-- httpx Response.is_success: any 2xx status. -/
def HttpEnv.is_success (h : HttpEnv) : Bool :=
  decide (200 ≤ h.status_code) && decide (h.status_code < 300)

/-! ### English variant: MsGraphMailer (app/extensions/ms_graph_mailer.py) -/

/-- The five configuration fields plus the derived MSAL confidential client
(present or not), as set up by the constructor. -/
structure MsGraphMailer where
  client_id : Option String
  client_secret : Option String
  tenant_id : Option String
  sender : Option String
  recipient : Option String
  confidential_client : Bool

/-- The constructor: the authority string exists iff tenant id is truthy, and
the MSAL confidential client is created iff client id, client secret and the
authority are all truthy. -/
def MsGraphMailer.init
    (client_id client_secret tenant_id sender recipient : Option String) :
    MsGraphMailer :=
  ⟨client_id, client_secret, tenant_id, sender, recipient,
    strTruthy client_id && strTruthy client_secret && strTruthy tenant_id⟩

/-- The missing-configuration names reported by is_configured:
the names whose values are falsy, in declaration order. -/
def MsGraphMailer.missing_configs (m : MsGraphMailer) : List String :=
  List.filterMap (fun p => if strTruthy p.2 then none else some p.1)
    [("MS_CLIENT_ID", m.client_id), ("MS_CLIENT_SECRET", m.client_secret),
     ("MS_TENANT_ID", m.tenant_id), ("MS_SENDER_ADDRESS", m.sender),
     ("MS_RECIPIENT_ADDRESS", m.recipient)]

/-- is_configured: false (with a warning naming the missing fields) when any
of the five fields is falsy; false (with an error log) when the confidential
client is absent; true otherwise.  It only logs, it never raises. -/
def MsGraphMailer.is_configured (m : MsGraphMailer) : Bool × List LogEvent :=
  if !(strTruthy m.client_id && strTruthy m.client_secret && strTruthy m.tenant_id &&
      strTruthy m.sender && strTruthy m.recipient) then
    (false, [LogEvent.warnNotConfigured m.missing_configs])
  else if !m.confidential_client then
    (false, [LogEvent.errorClientInit])
  else
    (true, [])

/-- The tail of acquire token, shared by the silent-hit and the fallback path:
given the dict in hand and the requests already performed, either log the
failure and return None, or return the access token. -/
def MsGraphMailer.tokenOutcome (result : List (String × String))
    (net : List NetEvent) :
    Option (Option String × List NetEvent × List LogEvent) :=
  if result.isEmpty || (dlookup result "access_token").isNone then
    some (none, net,
      [LogEvent.errorTokenFailed
        (if result.isEmpty then none else dlookup result "error")
        (if result.isEmpty then none else dlookup result "error_description")])
  else
    some (dlookup result "access_token", net, [])

/-- The token acquisition of the English variant.  The outer Option models the
assert on the confidential client (none = assertion failure); the inner Option
String is the Python return value (None or the access token).  The silent
attempt comes first; the client-credentials request is issued only when the
silent attempt returned a falsy value. -/
def MsGraphMailer.acquire_token (m : MsGraphMailer) (env : MsalEnv) :
    Option (Option String × List NetEvent × List LogEvent) :=
  if m.confidential_client = false then
    none
  else if env.silentMiss then
    MsGraphMailer.tokenOutcome env.client_result
      [NetEvent.silentAttempt, NetEvent.tokenRequest]
  else
    MsGraphMailer.tokenOutcome (env.silent_result.getD [])
      [NetEvent.silentAttempt]

/-- The str.join of Python, specialised to joining on the empty string. -/
def joinStr : List String → String
  | [] => ""
  | s :: rest => s ++ joinStr rest

/-- One li element of the English digest body. -/
def MsGraphMailer.gameItem (game : PromotionGame) : String :=
  "<li><strong>" ++ game.title ++ "</strong> - <a href=\"" ++ game.url ++ "\">" ++
    game.url ++ "</a></li>"

/-- The static body builder of the English variant. -/
def MsGraphMailer.build_body (promotions : List PromotionGame) : String :=
  if promotions.isEmpty then
    "<p>No free games detected from Epic Store at this time.</p>"
  else
    "<p>Here are the current free games on Epic Store:</p><ul>" ++
      joinStr (promotions.map MsGraphMailer.gameItem) ++ "</ul>"

/-- The JSON payload posted by the English variant.  Note that the source
writes the saveToSentItems value as the string "true". -/
def MsGraphMailer.sendPayload (m : MsGraphMailer) (promotions : List PromotionGame) :
    Json :=
  Json.obj
    [("message", Json.obj
       [("subject", Json.str "Epic Store - Weekly Free Games Update"),
        ("body", Json.obj [("contentType", Json.str "HTML"),
          ("content", Json.str (MsGraphMailer.build_body promotions))]),
        ("toRecipients", Json.arr
          [Json.obj [("emailAddress",
            Json.obj [("address", Json.str (m.recipient.getD ""))])]]),
        ("from", Json.obj [("emailAddress",
          Json.obj [("address", Json.str (m.sender.getD ""))])])]),
     ("saveToSentItems", Json.str "true")]

/-- The sendMail endpoint URL of the English variant. -/
def MsGraphMailer.sendMailUrl (m : MsGraphMailer) : String :=
  "https://graph.microsoft.com/v1.0/users/" ++ m.sender.getD "" ++ "/sendMail"

/-- send_free_game_digest: configuration check, token acquisition, POST.
The result is none exactly when the assert inside acquire token fails;
otherwise it carries the network trace and the log trace of the call.
The token guard of the source is a truthiness check, so both a None token
and an empty-string token return before any POST and before any send log.
The call itself never raises. -/
def MsGraphMailer.send_free_game_digest (m : MsGraphMailer) (msal : MsalEnv)
    (http : HttpEnv) (promotions : List PromotionGame) :
    Option (List NetEvent × List LogEvent) :=
  if (m.is_configured).1 = false then
    some ([], (m.is_configured).2)
  else
    match m.acquire_token msal with
    | none => none
    | some (none, net1, logs1) => some (net1, logs1)
    | some (some token, net1, logs1) =>
      if token.isEmpty then
        some (net1, logs1)
      else
        let net2 := net1 ++ [NetEvent.sendMailPost m.sendMailUrl
          ("Bearer " ++ token) (m.sendPayload promotions)]
        if http.is_success then
          (some (net2, logs1 ++ [LogEvent.successSent]))
        else
          (some (net2, logs1 ++
            [LogEvent.errorSendFailed http.status_code http.text]))

/-! ### Chinese variant: MicrosoftMailClient (app/services/notification_service.py) -/

structure MicrosoftMailClient where
  authority : String
  client_id : String
  client_secret : String
  sender : String
  recipients : List String

/-- The constructor of MicrosoftMailClient. -/
def MicrosoftMailClient.init
    (tenant_id client_id client_secret sender : String) (recipients : List String) :
    MicrosoftMailClient :=
  ⟨"https://login.microsoftonline.com/" ++ tenant_id,
    client_id, client_secret, sender, recipients⟩

/-- Python str of an optional string inside an f-string: None prints as "None". -/
def optRepr : Option String → String
  | none => "None"
  | some s => s

/-- The token acquisition of the Chinese variant: it always issues the full
client-credentials request (no silent attempt), and raises a RuntimeError
carrying the provider error description when the access token is absent. -/
def MicrosoftMailClient.acquire_token (_c : MicrosoftMailClient) (env : MsalEnv) :
    Except String String × List NetEvent :=
  let result := env.client_result
  match dlookup result "access_token" with
  | none =>
    (Except.error ("Failed to acquire Microsoft Graph token: " ++
       optRepr (dlookup result "error_description")), [NetEvent.tokenRequest])
  | some token => (Except.ok token, [NetEvent.tokenRequest])

/-- One li element of the Chinese notification body. -/
def MicrosoftMailClient.gameItem (promotion : PromotionGame) : String :=
  "<li><a href=\"" ++ promotion.url ++ "\">" ++ promotion.title ++ "</a> — " ++
    promotion.description ++ "</li>"

/-- The html body assembled inside send_promotions. -/
def MicrosoftMailClient.htmlBody (promotions : List PromotionGame) : String :=
  joinStr ["<p>以下是本周可领取的 Epic 免费游戏：</p>", "<ul>",
    joinStr (promotions.map MicrosoftMailClient.gameItem), "</ul>",
    "<p>邮件由 epic-awesome-gamer 自动发送。</p>"]

/-- The JSON payload posted by the Chinese variant: only subject, body and
toRecipients; no from field and no saveToSentItems field. -/
def MicrosoftMailClient.sendPayload (c : MicrosoftMailClient)
    (promotions : List PromotionGame) : Json :=
  Json.obj
    [("message", Json.obj
      [("subject", Json.str "Epic 免费游戏更新"),
       ("body", Json.obj [("contentType", Json.str "HTML"),
         ("content", Json.str (MicrosoftMailClient.htmlBody promotions))]),
       ("toRecipients", Json.arr (c.recipients.map (fun r =>
         Json.obj [("emailAddress", Json.obj [("address", Json.str r)])])))])]

/-- The sendMail endpoint URL of the Chinese variant. -/
def MicrosoftMailClient.sendMailUrl (c : MicrosoftMailClient) : String :=
  "https://graph.microsoft.com/v1.0/users/" ++ c.sender ++ "/sendMail"

/-- send_promotions: empty-promotions check, recipients check, token
acquisition (which may raise), POST, raise for status. -/
def MicrosoftMailClient.send_promotions (c : MicrosoftMailClient) (msal : MsalEnv)
    (http : HttpEnv) (promotions : List PromotionGame) :
    SendOutcome × List NetEvent × List LogEvent :=
  if promotions.isEmpty then
    (SendOutcome.returned, [], [LogEvent.debugNoPromotions])
  else if c.recipients.isEmpty then
    (SendOutcome.returned, [], [LogEvent.warnNoRecipients])
  else
    match c.acquire_token msal with
    | (Except.error msg, net1) => (SendOutcome.raisedAuth msg, net1, [])
    | (Except.ok token, net1) =>
      let net2 := net1 ++ [NetEvent.sendMailPost c.sendMailUrl ("Bearer " ++ token)
        (c.sendPayload promotions)]
      if http.is_success then
        (SendOutcome.returned, net2, [LogEvent.successSent])
      else
        (SendOutcome.raisedStatus http.status_code http.text, net2, [])

/-- Whether a network trace contains a POST to the sendMail endpoint. -/
def hasSendMailPost : List NetEvent → Bool
  | [] => false
  | NetEvent.sendMailPost _ _ _ :: _ => true
  | _ :: rest => hasSendMailPost rest

/-- Fetch a JSON object field, defaulting to the empty object. -/
def jsub (p : Json) (key : String) : Json :=
  (jlookup p key).getD (Json.obj [])

/-! ### Shared lemmas -/

lemma configured_confidential (m : MsGraphMailer)
    (h : (m.is_configured).1 = true) : m.confidential_client = true := by
  by_cases hb : m.confidential_client = true
  · exact hb
  · exfalso
    have hb2 : m.confidential_client = false := by
      cases hcc : m.confidential_client
      · rfl
      · exact absurd hcc hb
    simp only [MsGraphMailer.is_configured, hb2] at h
    split at h <;> simp_all

lemma tokenOutcome_missing (r : List (String × String)) (net : List NetEvent)
    (htk : dlookup r "access_token" = none) (hne : r ≠ []) :
    MsGraphMailer.tokenOutcome r net =
      some (none, net,
        [LogEvent.errorTokenFailed (dlookup r "error")
          (dlookup r "error_description")]) := by
  have he : r.isEmpty = false := by
    cases r with
    | nil => exact absurd rfl hne
    | cons a l => rfl
  simp [MsGraphMailer.tokenOutcome, htk, he]

lemma tokenOutcome_token (r : List (String × String)) (net : List NetEvent)
    (t : String) (htk : dlookup r "access_token" = some t) :
    MsGraphMailer.tokenOutcome r net = some (some t, net, []) := by
  have he : r.isEmpty = false := by
    cases r with
    | nil => simp [dlookup] at htk
    | cons a l => rfl
  simp [MsGraphMailer.tokenOutcome, htk, he]

lemma tokenOutcome_isSome (r : List (String × String)) (net : List NetEvent) :
    (MsGraphMailer.tokenOutcome r net).isSome = true := by
  unfold MsGraphMailer.tokenOutcome
  split <;> rfl

lemma acquire_token_fallback (m : MsGraphMailer) (env : MsalEnv)
    (hc : m.confidential_client = true) (hms : env.silentMiss = true) :
    m.acquire_token env =
      MsGraphMailer.tokenOutcome env.client_result
        [NetEvent.silentAttempt, NetEvent.tokenRequest] := by
  simp [MsGraphMailer.acquire_token, hc, hms]

lemma acquire_token_silent_hit (m : MsGraphMailer) (env : MsalEnv)
    (hc : m.confidential_client = true) (hms : env.silentMiss = false) :
    m.acquire_token env =
      MsGraphMailer.tokenOutcome (env.silent_result.getD [])
        [NetEvent.silentAttempt] := by
  simp [MsGraphMailer.acquire_token, hc, hms]

lemma clientB_acquire_missing (c : MicrosoftMailClient) (env : MsalEnv)
    (htk : dlookup env.client_result "access_token" = none) :
    c.acquire_token env =
      (Except.error ("Failed to acquire Microsoft Graph token: " ++
         optRepr (dlookup env.client_result "error_description")),
       [NetEvent.tokenRequest]) := by
  simp [MicrosoftMailClient.acquire_token, htk]

lemma clientB_acquire_token (c : MicrosoftMailClient) (env : MsalEnv) (t : String)
    (htk : dlookup env.client_result "access_token" = some t) :
    c.acquire_token env = (Except.ok t, [NetEvent.tokenRequest]) := by
  simp [MicrosoftMailClient.acquire_token, htk]

/-! ### Claim C1 -/

/-- C1 counterexample: the claim says that with any required field empty,
send performs no network call at all.  In the Chinese variant, a client with
empty tenant id, client id and client secret but a non-empty recipient list
still issues a token request on a non-empty promotions input: the network
trace of the call is [tokenRequest], not []. -/
theorem c1_counterexample :
    ((MicrosoftMailClient.init "" "" "" "s@x" ["r@x"]).send_promotions
        ⟨none, [("error_description", "bad")]⟩ ⟨200, "ok"⟩
        [⟨"Game A", "http://x/a", "d"⟩]).2.1 = [NetEvent.tokenRequest] := rfl

/-- C1 amended: in the English variant, any configuration rejected by
is_configured makes send return with an empty network trace, emitting exactly
the not-configured log records; the Chinese variant guards only the recipients
field (besides the promotions emptiness check): with empty recipients and
non-empty promotions it performs no network call and logs the warning. -/
theorem c1_amended (m : MsGraphMailer) (c : MicrosoftMailClient)
    (msal : MsalEnv) (http : HttpEnv) (ps : List PromotionGame) :
    ((m.is_configured).1 = false →
      m.send_free_game_digest msal http ps = some ([], (m.is_configured).2)) ∧
    (c.recipients = [] → ps.isEmpty = false →
      c.send_promotions msal http ps =
        (SendOutcome.returned, [], [LogEvent.warnNoRecipients])) := by
  constructor
  · intro h
    simp [MsGraphMailer.send_free_game_digest, h]
  · intro hr hp
    simp [MicrosoftMailClient.send_promotions, hp, hr]

/-- Witness for C1 amended at a concrete unconfigured mailer and a concrete
client with no recipients. -/
theorem c1_amended_witness :
    (MsGraphMailer.init none none none none none).send_free_game_digest
        ⟨none, []⟩ ⟨200, ""⟩ [⟨"Game A", "http://x/a", "d"⟩] =
      some ([], [LogEvent.warnNotConfigured
        ["MS_CLIENT_ID", "MS_CLIENT_SECRET", "MS_TENANT_ID", "MS_SENDER_ADDRESS",
         "MS_RECIPIENT_ADDRESS"]]) ∧
    (MicrosoftMailClient.init "t" "c" "s" "snd" []).send_promotions
        ⟨none, []⟩ ⟨200, ""⟩ [⟨"Game A", "http://x/a", "d"⟩] =
      (SendOutcome.returned, [], [LogEvent.warnNoRecipients]) := by
  constructor
  · exact (c1_amended (MsGraphMailer.init none none none none none)
      (MicrosoftMailClient.init "t" "c" "s" "snd" []) ⟨none, []⟩ ⟨200, ""⟩
      [⟨"Game A", "http://x/a", "d"⟩]).1 (by decide)
  · exact (c1_amended (MsGraphMailer.init none none none none none)
      (MicrosoftMailClient.init "t" "c" "s" "snd" []) ⟨none, []⟩ ⟨200, ""⟩
      [⟨"Game A", "http://x/a", "d"⟩]).2 rfl rfl

/-! ### Claim C2 -/

/-- C2 counterexample: the claim says that when the token response lacks an
access token, send fails with an AuthenticationError in both variants.  In the
English variant, a fully configured mailer on a non-empty promotions input
whose token response carries only error fields returns NORMALLY (a some
value, no raised error): it merely logs the failure.  No sendMail POST
appears in the trace. -/
theorem c2_counterexample :
    (MsGraphMailer.init (some "cid") (some "sec") (some "tid") (some "s@x")
        (some "r@x")).send_free_game_digest
      ⟨none, [("error", "invalid_client"), ("error_description", "bad secret")]⟩
      ⟨200, "ok"⟩ [⟨"Game A", "http://x/a", "d"⟩] =
    some ([NetEvent.silentAttempt, NetEvent.tokenRequest],
      [LogEvent.errorTokenFailed (some "invalid_client") (some "bad secret")]) := rfl

/-- C2 amended: with a valid configuration and a token response lacking the
access token, neither variant issues a sendMail POST; the Chinese variant
raises an error carrying the provider error description, while the English
variant logs the provider error code and description and returns normally. -/
theorem c2_amended (m : MsGraphMailer) (c : MicrosoftMailClient)
    (msal : MsalEnv) (http : HttpEnv) (ps : List PromotionGame)
    (hms : msal.silentMiss = true)
    (htk : dlookup msal.client_result "access_token" = none)
    (hne : msal.client_result ≠ []) :
    ((m.is_configured).1 = true →
      m.send_free_game_digest msal http ps =
        some ([NetEvent.silentAttempt, NetEvent.tokenRequest],
          [LogEvent.errorTokenFailed (dlookup msal.client_result "error")
            (dlookup msal.client_result "error_description")])) ∧
    (ps.isEmpty = false → c.recipients.isEmpty = false →
      c.send_promotions msal http ps =
        (SendOutcome.raisedAuth ("Failed to acquire Microsoft Graph token: " ++
           optRepr (dlookup msal.client_result "error_description")),
         [NetEvent.tokenRequest], [])) ∧
    hasSendMailPost [NetEvent.silentAttempt, NetEvent.tokenRequest] = false := by
  refine ⟨?_, ?_, rfl⟩
  · intro h
    have hc := configured_confidential m h
    have ha : m.acquire_token msal =
        some (none, [NetEvent.silentAttempt, NetEvent.tokenRequest],
          [LogEvent.errorTokenFailed (dlookup msal.client_result "error")
            (dlookup msal.client_result "error_description")]) := by
      rw [acquire_token_fallback m msal hc hms]
      exact tokenOutcome_missing _ _ htk hne
    simp [MsGraphMailer.send_free_game_digest, h, ha]
  · intro hp hr
    have ha := clientB_acquire_missing c msal htk
    simp [MicrosoftMailClient.send_promotions, hp, hr, ha]

/-- Witness for C2 amended at a concrete configured mailer, a concrete client
and a token response carrying only error fields. -/
theorem c2_amended_witness :
    (MsGraphMailer.init (some "cid") (some "sec") (some "tid") (some "s@x")
        (some "r@x")).send_free_game_digest
      ⟨none, [("error", "ec"), ("error_description", "ed")]⟩ ⟨200, "ok"⟩
      [⟨"Game A", "http://x/a", "d"⟩] =
    some ([NetEvent.silentAttempt, NetEvent.tokenRequest],
      [LogEvent.errorTokenFailed (some "ec") (some "ed")]) ∧
    (MicrosoftMailClient.init "tid" "cid" "sec" "s@x" ["r@x"]).send_promotions
      ⟨none, [("error", "ec"), ("error_description", "ed")]⟩ ⟨200, "ok"⟩
      [⟨"Game A", "http://x/a", "d"⟩] =
    (SendOutcome.raisedAuth "Failed to acquire Microsoft Graph token: ed",
      [NetEvent.tokenRequest], []) := by
  have h := c2_amended
    (MsGraphMailer.init (some "cid") (some "sec") (some "tid") (some "s@x")
      (some "r@x"))
    (MicrosoftMailClient.init "tid" "cid" "sec" "s@x" ["r@x"])
    ⟨none, [("error", "ec"), ("error_description", "ed")]⟩ ⟨200, "ok"⟩
    [⟨"Game A", "http://x/a", "d"⟩] rfl (by decide) (by decide)
  exact ⟨h.1 (by decide), h.2.1 rfl rfl⟩

/-! ### Claim C3 -/

/-- C3 counterexample: the claim says that on a non-success sendMail status
the send fails with a DeliveryError in both variants.  In the English variant,
a fully configured send whose POST gets HTTP 500 returns NORMALLY (a some
value, no raised error): it logs the status code and body and swallows the
failure. -/
theorem c3_counterexample :
    (MsGraphMailer.init (some "cid") (some "sec") (some "tid") (some "s@x")
        (some "r@x")).send_free_game_digest
      ⟨none, [("access_token", "tok")]⟩ ⟨500, "server error"⟩
      [⟨"Game A", "http://x/a", "d"⟩] =
    some ([NetEvent.silentAttempt, NetEvent.tokenRequest,
      NetEvent.sendMailPost
        ((MsGraphMailer.init (some "cid") (some "sec") (some "tid") (some "s@x")
          (some "r@x")).sendMailUrl)
        ("Bearer " ++ "tok")
        ((MsGraphMailer.init (some "cid") (some "sec") (some "tid") (some "s@x")
          (some "r@x")).sendPayload [⟨"Game A", "http://x/a", "d"⟩])],
      [LogEvent.errorSendFailed 500 "server error"]) := rfl

/-- C3 amended: on a non-success sendMail status, the English variant (once a
truthy, that is non-empty, token is in hand) logs the status code and the
response body and returns without raising, while the Chinese variant raises a
status error carrying the status code and the body but emits no log record at
all. -/
theorem c3_amended (m : MsGraphMailer) (c : MicrosoftMailClient)
    (msal : MsalEnv) (http : HttpEnv) (ps : List PromotionGame) (t : String)
    (hms : msal.silentMiss = true)
    (htk : dlookup msal.client_result "access_token" = some t)
    (hfail : http.is_success = false) :
    (t.isEmpty = false → (m.is_configured).1 = true →
      m.send_free_game_digest msal http ps =
        some ([NetEvent.silentAttempt, NetEvent.tokenRequest,
            NetEvent.sendMailPost m.sendMailUrl ("Bearer " ++ t) (m.sendPayload ps)],
          [LogEvent.errorSendFailed http.status_code http.text])) ∧
    (ps.isEmpty = false → c.recipients.isEmpty = false →
      c.send_promotions msal http ps =
        (SendOutcome.raisedStatus http.status_code http.text,
         [NetEvent.tokenRequest,
          NetEvent.sendMailPost c.sendMailUrl ("Bearer " ++ t) (c.sendPayload ps)],
         [])) := by
  constructor
  · intro htne h
    have hc := configured_confidential m h
    have ha : m.acquire_token msal =
        some (some t, [NetEvent.silentAttempt, NetEvent.tokenRequest], []) := by
      rw [acquire_token_fallback m msal hc hms]
      exact tokenOutcome_token _ _ _ htk
    simp [MsGraphMailer.send_free_game_digest, h, ha, htne, hfail]
  · intro hp hr
    have ha := clientB_acquire_token c msal t htk
    simp [MicrosoftMailClient.send_promotions, hp, hr, ha, hfail]

/-- Witness for C3 amended: concrete configured mailer and client, token
available, sendMail endpoint replying HTTP 500. -/
theorem c3_amended_witness :
    (MsGraphMailer.init (some "cid") (some "sec") (some "tid") (some "s@x")
        (some "r@x")).send_free_game_digest
      ⟨none, [("access_token", "tok")]⟩ ⟨500, "boom"⟩ [⟨"Game A", "http://x/a", "d"⟩] =
    some ([NetEvent.silentAttempt, NetEvent.tokenRequest,
        NetEvent.sendMailPost
          ((MsGraphMailer.init (some "cid") (some "sec") (some "tid") (some "s@x")
            (some "r@x")).sendMailUrl)
          ("Bearer " ++ "tok")
          ((MsGraphMailer.init (some "cid") (some "sec") (some "tid") (some "s@x")
            (some "r@x")).sendPayload [⟨"Game A", "http://x/a", "d"⟩])],
      [LogEvent.errorSendFailed 500 "boom"]) ∧
    (MicrosoftMailClient.init "tid" "cid" "sec" "s@x" ["r@x"]).send_promotions
      ⟨none, [("access_token", "tok")]⟩ ⟨500, "boom"⟩ [⟨"Game A", "http://x/a", "d"⟩] =
    (SendOutcome.raisedStatus 500 "boom",
      [NetEvent.tokenRequest,
       NetEvent.sendMailPost
         ((MicrosoftMailClient.init "tid" "cid" "sec" "s@x" ["r@x"]).sendMailUrl)
         ("Bearer " ++ "tok")
         ((MicrosoftMailClient.init "tid" "cid" "sec" "s@x" ["r@x"]).sendPayload
           [⟨"Game A", "http://x/a", "d"⟩])], []) := by
  have h := c3_amended
    (MsGraphMailer.init (some "cid") (some "sec") (some "tid") (some "s@x")
      (some "r@x"))
    (MicrosoftMailClient.init "tid" "cid" "sec" "s@x" ["r@x"])
    ⟨none, [("access_token", "tok")]⟩ ⟨500, "boom"⟩
    [⟨"Game A", "http://x/a", "d"⟩] "tok" rfl (by decide) (by decide)
  exact ⟨h.1 rfl (by decide), h.2 rfl rfl⟩

/-! ### Claim C4 -/

/-- C4 counterexample: the claim says that with a valid configuration an
empty promotions list is a no-op with no HTTP call in both variants.  The
English variant has no emptiness check: on an empty list it still acquires a
token and posts the digest (the trace contains a token request and a sendMail
POST, and a success log is emitted). -/
theorem c4_counterexample :
    (MsGraphMailer.init (some "cid") (some "sec") (some "tid") (some "s@x")
        (some "r@x")).send_free_game_digest
      ⟨none, [("access_token", "tok")]⟩ ⟨202, "accepted"⟩ [] =
    some ([NetEvent.silentAttempt, NetEvent.tokenRequest,
      NetEvent.sendMailPost
        ((MsGraphMailer.init (some "cid") (some "sec") (some "tid") (some "s@x")
          (some "r@x")).sendMailUrl)
        ("Bearer " ++ "tok")
        ((MsGraphMailer.init (some "cid") (some "sec") (some "tid") (some "s@x")
          (some "r@x")).sendPayload [])],
      [LogEvent.successSent]) := rfl

/-- C4 amended: on an empty promotions list the Chinese variant is a no-op
(debug log, normal return, no network event), while the English variant sends
the digest anyway: under a valid configuration with a truthy (non-empty)
token available it issues the token request and the sendMail POST, whose body
is the fixed no-free-games sentence. -/
theorem c4_amended (m : MsGraphMailer) (c : MicrosoftMailClient)
    (msal : MsalEnv) (http : HttpEnv) (ps : List PromotionGame) (t : String)
    (hcfg : (m.is_configured).1 = true)
    (hms : msal.silentMiss = true)
    (htk : dlookup msal.client_result "access_token" = some t)
    (hok : http.is_success = true) :
    (ps.isEmpty = true →
      c.send_promotions msal http ps =
        (SendOutcome.returned, [], [LogEvent.debugNoPromotions])) ∧
    (t.isEmpty = false →
      m.send_free_game_digest msal http [] =
        some ([NetEvent.silentAttempt, NetEvent.tokenRequest,
            NetEvent.sendMailPost m.sendMailUrl ("Bearer " ++ t) (m.sendPayload [])],
          [LogEvent.successSent])) ∧
    MsGraphMailer.build_body [] =
      "<p>No free games detected from Epic Store at this time.</p>" := by
  refine ⟨?_, ?_, rfl⟩
  · intro hp
    simp [MicrosoftMailClient.send_promotions, hp]
  · intro htne
    have hc := configured_confidential m hcfg
    have ha : m.acquire_token msal =
        some (some t, [NetEvent.silentAttempt, NetEvent.tokenRequest], []) := by
      rw [acquire_token_fallback m msal hc hms]
      exact tokenOutcome_token _ _ _ htk
    simp [MsGraphMailer.send_free_game_digest, hcfg, ha, htne, hok]

/-- Witness for C4 amended at concrete values with an empty promotions list. -/
theorem c4_amended_witness :
    (MicrosoftMailClient.init "tid" "cid" "sec" "s@x" ["r@x"]).send_promotions
      ⟨none, [("access_token", "tok")]⟩ ⟨200, "ok"⟩ [] =
    (SendOutcome.returned, [], [LogEvent.debugNoPromotions]) ∧
    (MsGraphMailer.init (some "cid") (some "sec") (some "tid") (some "s@x")
        (some "r@x")).send_free_game_digest
      ⟨none, [("access_token", "tok")]⟩ ⟨200, "ok"⟩ [] =
    some ([NetEvent.silentAttempt, NetEvent.tokenRequest,
      NetEvent.sendMailPost
        ((MsGraphMailer.init (some "cid") (some "sec") (some "tid") (some "s@x")
          (some "r@x")).sendMailUrl)
        ("Bearer " ++ "tok")
        ((MsGraphMailer.init (some "cid") (some "sec") (some "tid") (some "s@x")
          (some "r@x")).sendPayload [])],
      [LogEvent.successSent]) := by
  have h := c4_amended
    (MsGraphMailer.init (some "cid") (some "sec") (some "tid") (some "s@x")
      (some "r@x"))
    (MicrosoftMailClient.init "tid" "cid" "sec" "s@x" ["r@x"])
    ⟨none, [("access_token", "tok")]⟩ ⟨200, "ok"⟩ [] "tok"
    (by decide) rfl (by decide) (by decide)
  exact ⟨h.1 rfl, h.2.1 rfl⟩

/-! ### Claim C5 -/

/-- C5 counterexample: the claim says the posted payload has saveToSentItems
equal to the boolean true (and a from field) in both variants.  In the English
variant the saveToSentItems value is the JSON STRING "true", not the boolean;
in the Chinese variant the payload has no saveToSentItems field and no from
field at all. -/
theorem c5_counterexample :
    jlookup ((MsGraphMailer.init (some "cid") (some "sec") (some "tid")
        (some "s@x") (some "r@x")).sendPayload [⟨"Game A", "http://x/a", "d"⟩])
      "saveToSentItems" = some (Json.str "true") ∧
    some (Json.str "true") ≠ some (Json.bool true) ∧
    jlookup ((MicrosoftMailClient.init "tid" "cid" "sec" "s@x" ["r@x"]).sendPayload
      [⟨"Game A", "http://x/a", "d"⟩]) "saveToSentItems" = none ∧
    jlookup (jsub ((MicrosoftMailClient.init "tid" "cid" "sec" "s@x"
      ["r@x"]).sendPayload [⟨"Game A", "http://x/a", "d"⟩]) "message") "from" =
      none := by
  refine ⟨rfl, ?_, rfl, rfl⟩
  intro h
  exact Json.noConfusion (Option.some.inj h)

/-- C5 amended: the English payload matches the claimed shape except that
saveToSentItems carries the JSON string "true" rather than the boolean true;
its from field carries the configured sender and toRecipients has exactly the
one configured recipient.  The Chinese payload contains only subject, body and
toRecipients under message, with one entry per configured recipient (in
order), and omits both the from field and the saveToSentItems field. -/
theorem c5_amended (m : MsGraphMailer) (c : MicrosoftMailClient)
    (ps qs : List PromotionGame) :
    jlookup (m.sendPayload ps) "saveToSentItems" = some (Json.str "true") ∧
    jlookup (jsub (m.sendPayload ps) "message") "subject" =
      some (Json.str "Epic Store - Weekly Free Games Update") ∧
    jlookup (jsub (m.sendPayload ps) "message") "body" =
      some (Json.obj [("contentType", Json.str "HTML"),
        ("content", Json.str (MsGraphMailer.build_body ps))]) ∧
    jlookup (jsub (m.sendPayload ps) "message") "toRecipients" =
      some (Json.arr [Json.obj [("emailAddress",
        Json.obj [("address", Json.str (m.recipient.getD ""))])]]) ∧
    jlookup (jsub (m.sendPayload ps) "message") "from" =
      some (Json.obj [("emailAddress",
        Json.obj [("address", Json.str (m.sender.getD ""))])]) ∧
    jlookup (jsub (c.sendPayload qs) "message") "toRecipients" =
      some (Json.arr (c.recipients.map (fun r =>
        Json.obj [("emailAddress", Json.obj [("address", Json.str r)])]))) ∧
    (c.recipients.map (fun r =>
      Json.obj [("emailAddress", Json.obj [("address", Json.str r)])])).length =
      c.recipients.length ∧
    jlookup (jsub (c.sendPayload qs) "message") "from" = none ∧
    jlookup (c.sendPayload qs) "saveToSentItems" = none := by
  refine ⟨rfl, rfl, rfl, rfl, rfl, rfl, ?_, rfl, rfl⟩
  exact List.length_map _ _

/-! ### Claim C7 -/

/-- C7: on the empty promotions list the English body builder returns the
fixed no-free-games sentence, an HTML paragraph, and in particular not the
empty string. -/
theorem c7_empty_body_sentence :
    MsGraphMailer.build_body [] =
      "<p>No free games detected from Epic Store at this time.</p>" ∧
    MsGraphMailer.build_body [] ≠ "" := by
  refine ⟨rfl, ?_⟩
  decide

/-! ### Claim C8 -/

/-- C8 counterexample: the claim says every token acquisition attempts silent
acquisition first and issues the full request only when silent yields nothing.
In the Chinese variant, even with a cached token available to a silent
attempt, the full client-credentials request is issued (and no silent attempt
appears in the trace). -/
theorem c8_counterexample :
    ((MicrosoftMailClient.init "tid" "cid" "sec" "s@x" ["r@x"]).acquire_token
        ⟨some [("access_token", "cached")], [("access_token", "fresh")]⟩).2 =
      [NetEvent.tokenRequest] := rfl

/-- C8 amended: the English variant attempts the silent acquisition first and
issues the client-credentials request exactly when the silent attempt yields
a falsy result; the Chinese variant never attempts silent acquisition and
always issues the full request. -/
theorem c8_amended (m : MsGraphMailer) (c : MicrosoftMailClient)
    (env : MsalEnv) (hc : m.confidential_client = true) :
    (∃ t logs, m.acquire_token env =
      some (t, NetEvent.silentAttempt ::
        (if env.silentMiss = true then [NetEvent.tokenRequest] else []), logs)) ∧
    (c.acquire_token env).2 = [NetEvent.tokenRequest] := by
  constructor
  · cases hms : env.silentMiss with
    | true =>
      rw [acquire_token_fallback m env hc hms, if_pos rfl]
      unfold MsGraphMailer.tokenOutcome
      split
      · exact ⟨none, _, rfl⟩
      · exact ⟨dlookup env.client_result "access_token", [], rfl⟩
    | false =>
      rw [acquire_token_silent_hit m env hc hms,
        if_neg (Bool.false_ne_true)]
      unfold MsGraphMailer.tokenOutcome
      split
      · exact ⟨none, _, rfl⟩
      · exact ⟨dlookup (env.silent_result.getD []) "access_token", [], rfl⟩
  · cases h : dlookup env.client_result "access_token" <;>
      simp [MicrosoftMailClient.acquire_token, h]

/-- Witness for C8 amended at a concrete mailer whose confidential client
exists, with a silent cache hit available. -/
theorem c8_amended_witness :
    (∃ t logs,
      (MsGraphMailer.init (some "cid") (some "sec") (some "tid") (some "s@x")
          (some "r@x")).acquire_token
        ⟨some [("access_token", "cached")], [("access_token", "fresh")]⟩ =
      some (t, NetEvent.silentAttempt ::
        (if (⟨some [("access_token", "cached")], [("access_token", "fresh")]⟩ :
            MsalEnv).silentMiss = true then [NetEvent.tokenRequest] else []),
        logs)) ∧
    ((MicrosoftMailClient.init "tid" "cid" "sec" "s@x" ["r@x"]).acquire_token
      ⟨some [("access_token", "cached")], [("access_token", "fresh")]⟩).2 =
      [NetEvent.tokenRequest] :=
  c8_amended
    (MsGraphMailer.init (some "cid") (some "sec") (some "tid") (some "s@x")
      (some "r@x"))
    (MicrosoftMailClient.init "tid" "cid" "sec" "s@x" ["r@x"])
    ⟨some [("access_token", "cached")], [("access_token", "fresh")]⟩ (by decide)

/-! ### Claim C9 -/

/-- C9: for any mailer built by the constructor, is_configured returns true
exactly when all five required fields are truthy (present and non-empty);
when it returns false it emits exactly one warning naming the missing fields,
and a name appears in that report precisely when its field is falsy.  The
model of is_configured is a total function: it never raises. -/
theorem c9_is_configured_exact (cid cs tid snd rcp : Option String) :
    (((MsGraphMailer.init cid cs tid snd rcp).is_configured).1 = true ↔
      (strTruthy cid = true ∧ strTruthy cs = true ∧ strTruthy tid = true ∧
       strTruthy snd = true ∧ strTruthy rcp = true)) ∧
    (((MsGraphMailer.init cid cs tid snd rcp).is_configured).1 = false →
      ((MsGraphMailer.init cid cs tid snd rcp).is_configured).2 =
        [LogEvent.warnNotConfigured
          (MsGraphMailer.init cid cs tid snd rcp).missing_configs]) ∧
    (∀ s : String, s ∈ (MsGraphMailer.init cid cs tid snd rcp).missing_configs ↔
      ((s = "MS_CLIENT_ID" ∧ strTruthy cid = false) ∨
       (s = "MS_CLIENT_SECRET" ∧ strTruthy cs = false) ∨
       (s = "MS_TENANT_ID" ∧ strTruthy tid = false) ∨
       (s = "MS_SENDER_ADDRESS" ∧ strTruthy snd = false) ∨
       (s = "MS_RECIPIENT_ADDRESS" ∧ strTruthy rcp = false))) := by
  cases h1 : strTruthy cid <;> cases h2 : strTruthy cs <;>
    cases h3 : strTruthy tid <;> cases h4 : strTruthy snd <;>
    cases h5 : strTruthy rcp <;>
    simp [MsGraphMailer.init, MsGraphMailer.is_configured,
      MsGraphMailer.missing_configs, h1, h2, h3, h4, h5]

/-- Witness for C9 at a concrete configuration missing the client secret and
the recipient: the report names exactly those two fields. -/
theorem c9_witness :
    (((MsGraphMailer.init (some "cid") none (some "tid") (some "s@x")
        (some "")).is_configured).1 = false →
      ((MsGraphMailer.init (some "cid") none (some "tid") (some "s@x")
        (some "")).is_configured).2 =
        [LogEvent.warnNotConfigured
          (MsGraphMailer.init (some "cid") none (some "tid") (some "s@x")
            (some "")).missing_configs]) ∧
    ("MS_CLIENT_SECRET" ∈ (MsGraphMailer.init (some "cid") none (some "tid")
        (some "s@x") (some "")).missing_configs ↔
      (("MS_CLIENT_SECRET" = "MS_CLIENT_ID" ∧ strTruthy (some "cid") = false) ∨
       ("MS_CLIENT_SECRET" = "MS_CLIENT_SECRET" ∧ strTruthy none = false) ∨
       ("MS_CLIENT_SECRET" = "MS_TENANT_ID" ∧ strTruthy (some "tid") = false) ∨
       ("MS_CLIENT_SECRET" = "MS_SENDER_ADDRESS" ∧
         strTruthy (some "s@x") = false) ∨
       ("MS_CLIENT_SECRET" = "MS_RECIPIENT_ADDRESS" ∧
         strTruthy (some "") = false))) :=
  ⟨(c9_is_configured_exact (some "cid") none (some "tid") (some "s@x")
      (some "")).2.1,
   (c9_is_configured_exact (some "cid") none (some "tid") (some "s@x")
      (some "")).2.2 "MS_CLIENT_SECRET"⟩

/-! ### Claim C10 -/

/-- C10: is_configured returning true implies the MSAL confidential client
exists, so the assert at the top of acquire token holds on every path of
send_free_game_digest: the send function never hits the assertion failure
(modelled as the none result). -/
theorem c10_assert_holds :
    (∀ m : MsGraphMailer,
      (m.is_configured).1 = true → m.confidential_client = true) ∧
    (∀ (m : MsGraphMailer) (msal : MsalEnv) (http : HttpEnv)
      (ps : List PromotionGame),
      (m.send_free_game_digest msal http ps).isSome = true) := by
  refine ⟨configured_confidential, ?_⟩
  intro m msal http ps
  unfold MsGraphMailer.send_free_game_digest
  cases hcfg : (m.is_configured).1 with
  | false => simp
  | true =>
    have hc := configured_confidential m hcfg
    rw [if_neg (fun h => Bool.noConfusion h)]
    have hsome : (m.acquire_token msal).isSome = true := by
      unfold MsGraphMailer.acquire_token
      rw [hc, if_neg (fun h => Bool.noConfusion h)]
      split <;> exact tokenOutcome_isSome _ _
    rcases hres : m.acquire_token msal with _ | ⟨tok, net1, logs1⟩
    · rw [hres] at hsome
      simp at hsome
    · cases tok
      · simp [hres]
      · simp only [hres]
        split
        · simp
        · split <;> simp

/-- Witness for C10 at a concrete fully configured mailer: is_configured is
true, the confidential client exists, and a concrete send returns a some
value (the assert cannot fire). -/
theorem c10_witness :
    (MsGraphMailer.init (some "cid") (some "sec") (some "tid") (some "s@x")
      (some "r@x")).confidential_client = true ∧
    ((MsGraphMailer.init (some "cid") (some "sec") (some "tid") (some "s@x")
      (some "r@x")).send_free_game_digest ⟨none, [("access_token", "tok")]⟩
      ⟨200, "ok"⟩ []).isSome = true :=
  ⟨(c10_assert_holds).1
      (MsGraphMailer.init (some "cid") (some "sec") (some "tid") (some "s@x")
        (some "r@x")) (by decide),
   (c10_assert_holds).2
      (MsGraphMailer.init (some "cid") (some "sec") (some "tid") (some "s@x")
        (some "r@x")) ⟨none, [("access_token", "tok")]⟩ ⟨200, "ok"⟩ []⟩

/-! ### Counting li tags in the rendered bodies (for claim C6)

countLi counts the positions at which the four characters of the li opening
tag occur in a character list.  Since that tag cannot overlap itself, this is
the number of its occurrences. -/

def countLi : List Char → Nat
  | [] => 0
  | c :: rest =>
    (if c = '<' ∧ rest.take 3 = ['l', 'i', '>'] then 1 else 0) + countLi rest

/-- The last (up to) three characters of a character list. -/
def lastThree (l : List Char) : List Char := l.reverse.take 3

/-- Concatenation of a list of character-list segments. -/
def catSegs : List (List Char) → List Char
  | [] => []
  | s :: rest => s ++ catSegs rest

lemma countLi_cons (c : Char) (rest : List Char) :
    countLi (c :: rest) =
      (if c = '<' ∧ rest.take 3 = ['l', 'i', '>'] then 1 else 0) + countLi rest :=
  rfl

lemma countLi_zero_of_no_lt (l : List Char) (h : '<' ∉ l) : countLi l = 0 := by
  induction l with
  | nil => rfl
  | cons c rest ih =>
    have hne : ¬(c = '<' ∧ rest.take 3 = ['l', 'i', '>']) := by
      rintro ⟨rfl, -⟩
      exact h (List.mem_cons_self _ _)
    rw [countLi_cons, if_neg hne,
      ih (fun hm => h (List.mem_cons_of_mem _ hm))]

lemma lastThree_tail_subset (c : Char) (rest : List Char) :
    ∀ x, x ∈ lastThree rest → x ∈ lastThree (c :: rest) := by
  intro x hx
  unfold lastThree at hx ⊢
  rw [List.reverse_cons, List.take_append_eq_append_take]
  exact List.mem_append_left _ hx

/-- A character list without the angle-open character anywhere also has none
among its last three characters. -/
lemma no_lt_lastThree (l : List Char) (h : '<' ∉ l) : '<' ∉ lastThree l :=
  fun hm => h (List.mem_reverse.mp (List.mem_of_mem_take hm))

/-- The occurrence count is additive over a concatenation whose left part has
no angle-open character among its last three characters (so no occurrence can
straddle the junction). -/
lemma countLi_append (a b : List Char) (ha : '<' ∉ lastThree a) :
    countLi (a ++ b) = countLi a + countLi b := by
  induction a with
  | nil =>
    rw [List.nil_append, show countLi [] = 0 from rfl, Nat.zero_add]
  | cons c rest ih =>
    have hrest : '<' ∉ lastThree rest :=
      fun hm => ha (lastThree_tail_subset c rest _ hm)
    rw [List.cons_append, countLi_cons, countLi_cons, ih hrest]
    by_cases hc : c = '<'
    · subst hc
      have hlen : 3 ≤ rest.length := by
        by_contra hlt
        push_neg at hlt
        apply ha
        unfold lastThree
        rw [List.reverse_cons]
        have hle : (rest.reverse ++ ['<']).length ≤ 3 := by
          rw [List.length_append, List.length_reverse]
          simp only [List.length_singleton]
          omega
        rw [List.take_of_length_le hle]
        exact List.mem_append_right _ (List.mem_singleton.mpr rfl)
      have htake : (rest ++ b).take 3 = rest.take 3 := by
        rw [List.take_append_eq_append_take, Nat.sub_eq_zero_of_le hlen,
          List.take_zero, List.append_nil]
      rw [htake]
      ring
    · rw [if_neg (fun h => hc h.1), if_neg (fun h => hc h.1)]
      ring

/-- The last three characters of a concatenation are those of the right part
whenever the right part has at least three characters. -/
lemma lastThree_append_right (a b : List Char) (hb : 3 ≤ b.length) :
    lastThree (a ++ b) = lastThree b := by
  unfold lastThree
  rw [List.reverse_append, List.take_append_eq_append_take]
  have h0 : 3 - b.reverse.length = 0 := by
    rw [List.length_reverse]
    omega
  rw [h0, List.take_zero, List.append_nil]

/-- Occurrence counting distributes over a segment concatenation when every
segment is straddle-free at its end. -/
lemma countLi_catSegs (segs : List (List Char))
    (h : ∀ s ∈ segs, '<' ∉ lastThree s) :
    countLi (catSegs segs) = (segs.map countLi).sum := by
  induction segs with
  | nil => rfl
  | cons s rest ih =>
    show countLi (s ++ catSegs rest) = _
    rw [countLi_append _ _ (h s (List.mem_cons_self _ _)),
      ih (fun x hx => h x (List.mem_cons_of_mem _ hx)),
      List.map_cons, List.sum_cons]

lemma catSegs_length_ge (segs : List (List Char)) (z : List Char) :
    z.length ≤ (catSegs (segs ++ [z])).length := by
  induction segs with
  | nil =>
    show z.length ≤ (z ++ catSegs []).length
    simp [catSegs]
  | cons s rest ih =>
    show z.length ≤ (s ++ catSegs (rest ++ [z])).length
    rw [List.length_append]
    omega

lemma lastThree_catSegs_concat (segs : List (List Char)) (z : List Char)
    (hz : 3 ≤ z.length) :
    lastThree (catSegs (segs ++ [z])) = lastThree z := by
  induction segs with
  | nil =>
    show lastThree (z ++ catSegs []) = _
    rw [show catSegs ([] : List (List Char)) = [] from rfl, List.append_nil]
  | cons s rest ih =>
    show lastThree (s ++ catSegs (rest ++ [z])) = _
    have hlen : 3 ≤ (catSegs (rest ++ [z])).length :=
      le_trans hz (catSegs_length_ge rest z)
    rw [lastThree_append_right _ _ hlen, ih]

lemma joinStr_data (s : String) (rest : List String) :
    (joinStr (s :: rest)).data = s.data ++ (joinStr rest).data := by
  show (s ++ joinStr rest).data = _
  rw [String.data_append]

lemma three_le_length_of_lastThree (l : List Char)
    (h : lastThree l = ['>', 'i', 'l']) : 3 ≤ l.length := by
  have hlen := congrArg List.length h
  simp only [lastThree, List.length_take, List.length_reverse] at hlen
  simp only [List.length_cons, List.length_nil] at hlen
  omega

/-- The last three characters of a join of strings that all end with the li
closing tag. -/
lemma lastThree_joinStr (l : List String) (hne : l ≠ [])
    (h : ∀ s ∈ l, lastThree s.data = ['>', 'i', 'l']) :
    lastThree (joinStr l).data = ['>', 'i', 'l'] := by
  induction l with
  | nil => exact absurd rfl hne
  | cons s rest ih =>
    rw [joinStr_data]
    cases rest with
    | nil =>
      rw [show (joinStr []).data = [] from rfl, List.append_nil]
      exact h s (List.mem_cons_self _ _)
    | cons s2 rest2 =>
      have hr := ih (List.cons_ne_nil _ _)
        (fun x hx => h x (List.mem_cons_of_mem _ hx))
      rw [lastThree_append_right _ _ (three_le_length_of_lastThree _ hr), hr]

/-- The number of li tags in a join of strings that each carry exactly one li
tag and are straddle-free at their ends. -/
lemma countLi_joinStr (l : List String)
    (h1 : ∀ s ∈ l, countLi s.data = 1)
    (h3 : ∀ s ∈ l, '<' ∉ lastThree s.data) :
    countLi (joinStr l).data = l.length := by
  induction l with
  | nil => rfl
  | cons s rest ih =>
    rw [joinStr_data, countLi_append _ _ (h3 s (List.mem_cons_self _ _)),
      h1 s (List.mem_cons_self _ _),
      ih (fun x hx => h1 x (List.mem_cons_of_mem _ hx))
        (fun x hx => h3 x (List.mem_cons_of_mem _ hx)),
      List.length_cons]
    omega

/-! ### Item-level facts for the two renderers -/

lemma gameItemA_segs (g : PromotionGame) :
    (MsGraphMailer.gameItem g).data =
      catSegs ["<li><strong>".data, g.title.data, "</strong> - <a href=\"".data,
        g.url.data, "\">".data, g.url.data, "</a></li>".data] := by
  simp [MsGraphMailer.gameItem, catSegs, String.data_append, List.append_assoc]

lemma gameItemB_segs (g : PromotionGame) :
    (MicrosoftMailClient.gameItem g).data =
      catSegs ["<li><a href=\"".data, g.url.data, "\">".data, g.title.data,
        "</a> — ".data, g.description.data, "</li>".data] := by
  simp [MicrosoftMailClient.gameItem, catSegs, String.data_append,
    List.append_assoc]

lemma countLi_gameItemA (g : PromotionGame)
    (ht : '<' ∉ g.title.data) (hu : '<' ∉ g.url.data) :
    countLi (MsGraphMailer.gameItem g).data = 1 := by
  rw [gameItemA_segs, countLi_catSegs]
  · simp only [List.map_cons, List.map_nil, List.sum_cons, List.sum_nil]
    rw [countLi_zero_of_no_lt _ ht, countLi_zero_of_no_lt _ hu]
    decide
  · intro s hs
    simp only [List.mem_cons, List.not_mem_nil, or_false] at hs
    rcases hs with rfl | rfl | rfl | rfl | rfl | rfl | rfl
    · decide
    · exact no_lt_lastThree _ ht
    · decide
    · exact no_lt_lastThree _ hu
    · decide
    · exact no_lt_lastThree _ hu
    · decide

lemma countLi_gameItemB (g : PromotionGame)
    (ht : '<' ∉ g.title.data) (hu : '<' ∉ g.url.data)
    (hd : '<' ∉ g.description.data) :
    countLi (MicrosoftMailClient.gameItem g).data = 1 := by
  rw [gameItemB_segs, countLi_catSegs]
  · simp only [List.map_cons, List.map_nil, List.sum_cons, List.sum_nil]
    rw [countLi_zero_of_no_lt _ ht, countLi_zero_of_no_lt _ hu,
      countLi_zero_of_no_lt _ hd]
    decide
  · intro s hs
    simp only [List.mem_cons, List.not_mem_nil, or_false] at hs
    rcases hs with rfl | rfl | rfl | rfl | rfl | rfl | rfl
    · decide
    · exact no_lt_lastThree _ hu
    · decide
    · exact no_lt_lastThree _ ht
    · decide
    · exact no_lt_lastThree _ hd
    · decide

lemma lastThree_gameItemA (g : PromotionGame) :
    lastThree (MsGraphMailer.gameItem g).data = ['>', 'i', 'l'] := by
  rw [gameItemA_segs]
  rw [show (["<li><strong>".data, g.title.data, "</strong> - <a href=\"".data,
      g.url.data, "\">".data, g.url.data, "</a></li>".data] : List (List Char)) =
      ["<li><strong>".data, g.title.data, "</strong> - <a href=\"".data,
        g.url.data, "\">".data, g.url.data] ++ ["</a></li>".data] from rfl]
  rw [lastThree_catSegs_concat _ _ (by decide)]
  decide

lemma lastThree_gameItemB (g : PromotionGame) :
    lastThree (MicrosoftMailClient.gameItem g).data = ['>', 'i', 'l'] := by
  rw [gameItemB_segs]
  rw [show (["<li><a href=\"".data, g.url.data, "\">".data, g.title.data,
      "</a> — ".data, g.description.data, "</li>".data] : List (List Char)) =
      ["<li><a href=\"".data, g.url.data, "\">".data, g.title.data,
        "</a> — ".data, g.description.data] ++ ["</li>".data] from rfl]
  rw [lastThree_catSegs_concat _ _ (by decide)]
  decide

/-! ### Body-level counting -/

/-- Under fields free of the angle-open character, the English body holds
exactly one li tag per promotion. -/
lemma countLi_buildBodyA (ps : List PromotionGame) (hne : ps.isEmpty = false)
    (h : ∀ g ∈ ps, '<' ∉ g.title.data ∧ '<' ∉ g.url.data) :
    countLi (MsGraphMailer.build_body ps).data = ps.length := by
  unfold MsGraphMailer.build_body
  rw [hne, if_neg Bool.false_ne_true, String.data_append, String.data_append,
    List.append_assoc]
  have hitems3 : ∀ s ∈ ps.map MsGraphMailer.gameItem,
      lastThree s.data = ['>', 'i', 'l'] := by
    intro s hs
    rcases List.mem_map.mp hs with ⟨g, hg, rfl⟩
    exact lastThree_gameItemA g
  have hmapne : ps.map MsGraphMailer.gameItem ≠ [] := by
    cases ps with
    | nil => simp [List.isEmpty] at hne
    | cons a l => simp
  have hjoin3 := lastThree_joinStr _ hmapne hitems3
  rw [countLi_append _ _ (by decide), countLi_append _ _
    (show '<' ∉ lastThree (joinStr (ps.map MsGraphMailer.gameItem)).data from by
      rw [hjoin3]
      decide)]
  rw [countLi_joinStr _
    (fun s hs => by
      rcases List.mem_map.mp hs with ⟨g, hg, rfl⟩
      exact countLi_gameItemA g (h g hg).1 (h g hg).2)
    (fun s hs => by
      rcases List.mem_map.mp hs with ⟨g, hg, rfl⟩
      rw [lastThree_gameItemA g]
      decide)]
  rw [show countLi ("<p>Here are the current free games on Epic Store:</p><ul>".data) = 0
    from by decide]
  rw [show countLi ("</ul>".data) = 0 from by decide]
  rw [List.length_map]
  omega

/-- Under fields free of the angle-open character, the Chinese body holds
exactly one li tag per promotion. -/
lemma countLi_htmlBodyB (ps : List PromotionGame) (hne : ps.isEmpty = false)
    (h : ∀ g ∈ ps, '<' ∉ g.title.data ∧ '<' ∉ g.url.data ∧
      '<' ∉ g.description.data) :
    countLi (MicrosoftMailClient.htmlBody ps).data = ps.length := by
  unfold MicrosoftMailClient.htmlBody
  rw [joinStr_data, joinStr_data, joinStr_data, joinStr_data, joinStr_data,
    show (joinStr []).data = [] from rfl, List.append_nil]
  have hitems3 : ∀ s ∈ ps.map MicrosoftMailClient.gameItem,
      lastThree s.data = ['>', 'i', 'l'] := by
    intro s hs
    rcases List.mem_map.mp hs with ⟨g, hg, rfl⟩
    exact lastThree_gameItemB g
  have hmapne : ps.map MicrosoftMailClient.gameItem ≠ [] := by
    cases ps with
    | nil => simp [List.isEmpty] at hne
    | cons a l => simp
  have hjoin3 := lastThree_joinStr _ hmapne hitems3
  rw [countLi_append _ _ (by decide), countLi_append _ _ (by decide),
    countLi_append _ _
      (show '<' ∉ lastThree (joinStr (ps.map MicrosoftMailClient.gameItem)).data
        from by
        rw [hjoin3]
        decide),
    countLi_append _ _ (by decide)]
  rw [countLi_joinStr _
    (fun s hs => by
      rcases List.mem_map.mp hs with ⟨g, hg, rfl⟩
      exact countLi_gameItemB g (h g hg).1 (h g hg).2.1 (h g hg).2.2)
    (fun s hs => by
      rcases List.mem_map.mp hs with ⟨g, hg, rfl⟩
      rw [lastThree_gameItemB g]
      decide)]
  rw [show countLi ("<p>以下是本周可领取的 Epic 免费游戏：</p>".data) = 0 from by decide,
    show countLi ("<ul>".data) = 0 from by decide,
    show countLi ("</ul>".data) = 0 from by decide,
    show countLi ("<p>邮件由 epic-awesome-gamer 自动发送。</p>".data) = 0 from by decide,
    List.length_map]
  omega

/-! ### Ordered containment of the titles and hrefs -/

/-- The given patterns occur, disjointly and in order, inside the string. -/
def containsInOrder : List (List Char) → List Char → Prop
  | [], _ => True
  | p :: ps, s => ∃ pre rest, s = pre ++ (p ++ rest) ∧ containsInOrder ps rest

lemma containsInOrder_prepend (pats : List (List Char)) (x s : List Char)
    (h : containsInOrder pats s) : containsInOrder pats (x ++ s) := by
  cases pats with
  | nil => exact trivial
  | cons p ps =>
    obtain ⟨pre, rest, hs, hrec⟩ := h
    exact ⟨x ++ pre, rest, by rw [hs, List.append_assoc], hrec⟩

/-- Per promotion, in input order: first the title, then the full href
fragment holding the url, as rendered by the English variant. -/
def patternsA : List PromotionGame → List (List Char)
  | [] => []
  | g :: rest =>
    g.title.data :: ("<a href=\"" ++ g.url ++ "\">").data :: patternsA rest

/-- Per promotion, in input order: first the full href fragment holding the
url, then the title, as rendered by the Chinese variant. -/
def patternsB : List PromotionGame → List (List Char)
  | [] => []
  | g :: rest =>
    ("<a href=\"" ++ g.url ++ "\">").data :: g.title.data :: patternsB rest

lemma containsInOrder_itemsA (ps : List PromotionGame) :
    ∀ suffix : List Char,
      containsInOrder (patternsA ps)
        ((joinStr (ps.map MsGraphMailer.gameItem)).data ++ suffix) := by
  induction ps with
  | nil => intro suffix; exact trivial
  | cons g rest ih =>
    intro suffix
    have hA : (joinStr ((g :: rest).map MsGraphMailer.gameItem)).data ++ suffix =
        "<li><strong>".data ++ (g.title.data ++ ("</strong> - ".data ++
          (("<a href=\"" ++ g.url ++ "\">").data ++ (g.url.data ++
            ("</a></li>".data ++
              ((joinStr (rest.map MsGraphMailer.gameItem)).data ++ suffix)))))) := by
      simp only [List.map_cons, joinStr_data, MsGraphMailer.gameItem,
        String.data_append, List.append_assoc]
      rfl
    rw [hA]
    refine ⟨"<li><strong>".data,
      "</strong> - ".data ++ (("<a href=\"" ++ g.url ++ "\">").data ++
        (g.url.data ++ ("</a></li>".data ++
          ((joinStr (rest.map MsGraphMailer.gameItem)).data ++ suffix)))),
      rfl,
      "</strong> - ".data,
      g.url.data ++ ("</a></li>".data ++
        ((joinStr (rest.map MsGraphMailer.gameItem)).data ++ suffix)),
      rfl, ?_⟩
    exact containsInOrder_prepend _ _ _
      (containsInOrder_prepend _ _ _ (ih suffix))

lemma containsInOrder_itemsB (ps : List PromotionGame) :
    ∀ suffix : List Char,
      containsInOrder (patternsB ps)
        ((joinStr (ps.map MicrosoftMailClient.gameItem)).data ++ suffix) := by
  induction ps with
  | nil => intro suffix; exact trivial
  | cons g rest ih =>
    intro suffix
    have hB : (joinStr ((g :: rest).map MicrosoftMailClient.gameItem)).data ++
        suffix =
        "<li>".data ++ (("<a href=\"" ++ g.url ++ "\">").data ++
          (g.title.data ++ ("</a> — ".data ++ (g.description.data ++
            ("</li>".data ++
              ((joinStr (rest.map MicrosoftMailClient.gameItem)).data ++
                suffix)))))) := by
      simp only [List.map_cons, joinStr_data, MicrosoftMailClient.gameItem,
        String.data_append, List.append_assoc]
      rfl
    rw [hB]
    refine ⟨"<li>".data,
      g.title.data ++ ("</a> — ".data ++ (g.description.data ++
        ("</li>".data ++
          ((joinStr (rest.map MicrosoftMailClient.gameItem)).data ++ suffix)))),
      rfl,
      [],
      "</a> — ".data ++ (g.description.data ++ ("</li>".data ++
        ((joinStr (rest.map MicrosoftMailClient.gameItem)).data ++ suffix))),
      by rw [List.nil_append], ?_⟩
    exact containsInOrder_prepend _ _ _ (containsInOrder_prepend _ _ _
      (containsInOrder_prepend _ _ _ (ih suffix)))

lemma containsInOrder_buildBodyA (ps : List PromotionGame)
    (hne : ps.isEmpty = false) :
    containsInOrder (patternsA ps) (MsGraphMailer.build_body ps).data := by
  unfold MsGraphMailer.build_body
  rw [hne, if_neg Bool.false_ne_true, String.data_append, String.data_append,
    List.append_assoc]
  exact containsInOrder_prepend _ _ _ (containsInOrder_itemsA ps "</ul>".data)

lemma containsInOrder_htmlBodyB (ps : List PromotionGame) :
    containsInOrder (patternsB ps) (MicrosoftMailClient.htmlBody ps).data := by
  unfold MicrosoftMailClient.htmlBody
  rw [joinStr_data, joinStr_data, joinStr_data]
  exact containsInOrder_prepend _ _ _ (containsInOrder_prepend _ _ _
    (containsInOrder_itemsB ps
      (joinStr ["</ul>", "<p>邮件由 epic-awesome-gamer 自动发送。</p>"]).data))

/-! ### Claim C6 -/

set_option maxRecDepth 8192 in
/-- C6 counterexample: the claim asserts exactly one li item per promotion
for every non-empty input.  Neither renderer escapes the interpolated fields,
so a title containing an li tag inflates the count: with one promotion whose
title is an li element, both rendered bodies contain two li opening tags. -/
theorem c6_counterexample :
    countLi (MsGraphMailer.build_body
      [⟨"<li>Game A</li>", "http://x/a", ""⟩]).data = 2 ∧
    countLi (MicrosoftMailClient.htmlBody
      [⟨"<li>Game A</li>", "http://x/a", ""⟩]).data = 2 ∧
    ([⟨"<li>Game A</li>", "http://x/a", ""⟩] : List PromotionGame).length = 1 := by
  refine ⟨by decide, by decide, rfl⟩

/-- C6 amended: for every non-empty promotions list, each rendered body
contains, for each promotion in input order, its title and the full href
fragment holding its url (title first in the English variant, href first in
the Chinese variant); and whenever the titles, urls and descriptions are free
of the angle-open character (no markup injection), each body contains exactly
one li opening tag per promotion. -/
theorem c6_amended (ps : List PromotionGame) (hne : ps.isEmpty = false) :
    containsInOrder (patternsA ps) (MsGraphMailer.build_body ps).data ∧
    containsInOrder (patternsB ps) (MicrosoftMailClient.htmlBody ps).data ∧
    ((∀ g ∈ ps, '<' ∉ g.title.data ∧ '<' ∉ g.url.data ∧
        '<' ∉ g.description.data) →
      countLi (MsGraphMailer.build_body ps).data = ps.length ∧
      countLi (MicrosoftMailClient.htmlBody ps).data = ps.length) :=
  ⟨containsInOrder_buildBodyA ps hne,
   containsInOrder_htmlBodyB ps,
   fun hfields =>
     ⟨countLi_buildBodyA ps hne
        (fun g hg => ⟨(hfields g hg).1, (hfields g hg).2.1⟩),
      countLi_htmlBodyB ps hne hfields⟩⟩

/-- Witness for C6 amended at the two-element input named by the claim. -/
theorem c6_amended_witness :
    containsInOrder
      (patternsA [⟨"Game A", "http://x/a", ""⟩, ⟨"Game B", "http://x/b", ""⟩])
      (MsGraphMailer.build_body
        [⟨"Game A", "http://x/a", ""⟩, ⟨"Game B", "http://x/b", ""⟩]).data ∧
    containsInOrder
      (patternsB [⟨"Game A", "http://x/a", ""⟩, ⟨"Game B", "http://x/b", ""⟩])
      (MicrosoftMailClient.htmlBody
        [⟨"Game A", "http://x/a", ""⟩, ⟨"Game B", "http://x/b", ""⟩]).data ∧
    countLi (MsGraphMailer.build_body
      [⟨"Game A", "http://x/a", ""⟩, ⟨"Game B", "http://x/b", ""⟩]).data = 2 ∧
    countLi (MicrosoftMailClient.htmlBody
      [⟨"Game A", "http://x/a", ""⟩, ⟨"Game B", "http://x/b", ""⟩]).data = 2 := by
  have h := c6_amended
    [⟨"Game A", "http://x/a", ""⟩, ⟨"Game B", "http://x/b", ""⟩] rfl
  exact ⟨h.1, h.2.1, h.2.2 (by decide)⟩
